import Mathlib

/-
Shallow embedding of `src/gpt.py` (marc-w/openai-file-parse-wrapper).

The module is a thin client over the OpenAI assistants API.  Its Python
semantics is modelled explicitly:
  * Python attribute access `getattr(o, a, None)` over a small universe of
    Python values (`PyVal`), with Python truthiness (`pyTruthy`);
  * Python's `str.replace` (replace ALL non-overlapping occurrences, left
    to right; empty pattern inserts the replacement at every boundary);
  * the `GPT` manager class as a state record threaded through each method,
    with remote interaction captured by an environment record (`Env`) and a
    trace of remote calls (`List RemoteCall`);
  * exceptions as `Except PyErr`.
-/

namespace GptWrapper

mutual
/-- A Python value, as far as the module manipulates them: `None`, numbers,
strings and attribute-bearing objects (whose attribute table is an
`AttrList`). -/
inductive PyVal where
  | none : PyVal
  | int : Int → PyVal
  | str : String → PyVal
  | obj : AttrList → PyVal

/-- An object's attribute table: an association list of names and values. -/
inductive AttrList where
  | nil : AttrList
  | cons : String → PyVal → AttrList → AttrList
end
deriving instance DecidableEq for PyVal, AttrList
deriving instance Repr for PyVal, AttrList

/-- Python truthiness for `PyVal`: `None`, `0` and `""` are falsy; a plain
object is truthy. -/
def pyTruthy : PyVal → Bool
  | .none => false
  | .int n => n != 0
  | .str s => !s.isEmpty
  | .obj _ => true

/-- Attribute lookup in an object's attribute table (first binding wins). -/
def lookupAttr : AttrList → String → Option PyVal
  | .nil, _ => Option.none
  | .cons k v rest, a => if k = a then some v else lookupAttr rest a

/-- `getattr(obj, attr, None)`: defaulting attribute access.  Only `obj`
values carry attributes; on any other value the default `None` is returned. -/
def pygetattr (v : PyVal) (attr : String) : PyVal :=
  match v with
  | .obj attrs =>
    match lookupAttr attrs attr with
    | some w => w
    | Option.none => .none
  | _ => .none

/-- The `for attr in _path` loop of `attribute_puller` (src/gpt.py:40-47):
`ret` starts as the previous accumulator; each step fetches off `ret` when it
is truthy and off the root `obj` otherwise, and the loop breaks (returning the
fetched value) as soon as a fetched value is falsy. -/
def pullerLoop (obj : PyVal) : List String → PyVal → PyVal
  | [], ret => ret
  | attr :: rest, ret =>
    let ret' := if pyTruthy ret then pygetattr ret attr else pygetattr obj attr
    if pyTruthy ret' then pullerLoop obj rest ret' else ret'

/-- `attribute_puller(_path, _obj)` (src/gpt.py:28-48): returns `None` when
the path is empty or the root is falsy, otherwise runs the walk loop starting
from `ret = None`. -/
def attribute_puller (path : List String) (obj : PyVal) : PyVal :=
  if path.isEmpty || !pyTruthy obj then .none
  else pullerLoop obj path .none

/-- Python exceptions raised (or raisable) by the module. -/
inductive PyErr where
  | attributeError : String → PyErr
  | indexError : PyErr
  | runtimeError : String → PyErr
  | nameError : String → PyErr
  | typeError : PyErr
  | ioError : String → PyErr
deriving DecidableEq, Repr

/-- `getattr(o, a, d)` in an exception monad: the three-argument form of
`getattr` never raises, it returns the default on a missing attribute. -/
def pygetattrDefaultE (v : PyVal) (attr : String) (dflt : PyVal) :
    Except PyErr PyVal :=
  Except.ok
    (match v with
     | .obj attrs =>
       match lookupAttr attrs attr with
       | some w => w
       | Option.none => dflt
     | _ => dflt)

/-- The walk loop of `attribute_puller`, embedded in the exception monad so
that a raising construct would surface as `Except.error`. -/
def pullerLoopE (obj : PyVal) : List String → PyVal → Except PyErr PyVal
  | [], ret => .ok ret
  | attr :: rest, ret =>
    match (if pyTruthy ret then pygetattrDefaultE ret attr .none
           else pygetattrDefaultE obj attr .none) with
    | .error e => .error e
    | .ok ret' => if pyTruthy ret' then pullerLoopE obj rest ret' else .ok ret'

/-- `attribute_puller` in the exception monad. -/
def attributePullerE (path : List String) (obj : PyVal) :
    Except PyErr PyVal :=
  if path.isEmpty || !pyTruthy obj then .ok .none
  else pullerLoopE obj path .none

/-- The ideal left-to-right walk: fetch each attribute off the previous
step's value (off the root for the first step). -/
def walkLeaf (obj : PyVal) (path : List String) : PyVal :=
  path.foldl pygetattr obj

/-- Every step of the ideal walk exists and yields a truthy value. -/
def allStepsTruthy (obj : PyVal) : List String → Bool
  | [] => true
  | a :: rest => pyTruthy (pygetattr obj a) && allStepsTruthy (pygetattr obj a) rest

/-- An object whose attribute `usage` exists but holds the falsy value `0`. -/
def objWithFalsyAttr : PyVal := .obj (.cons "usage" (.int 0) .nil)

/-- Scan for Python `str.replace` with a non-empty pattern: at each position,
if the pattern starts here, emit the replacement and skip the pattern;
otherwise keep the character.  The fuel argument only serves structural
recursion; `s.length` fuel is always enough when the pattern is non-empty. -/
def pyReplaceAux : Nat → List Char → List Char → List Char → List Char
  | 0, s, _, _ => s
  | _ + 1, [], _, _ => []
  | fuel + 1, c :: rest, old, new =>
    if old.isPrefixOf (c :: rest) then
      new ++ pyReplaceAux fuel (List.drop old.length (c :: rest)) old new
    else
      c :: pyReplaceAux fuel rest old new

/-- Python `s.replace(old, new)` on character lists: every non-overlapping
occurrence of `old` is replaced left to right; an empty pattern inserts the
replacement at every character boundary (CPython semantics). -/
def pyReplaceChars (s old new : List Char) : List Char :=
  if old.isEmpty then new ++ (s.map (fun c => c :: new)).flatten
  else pyReplaceAux (s.length + 1) s old new

/-- Python `s.replace(old, new)` on strings. -/
def pyReplace (s old new : String) : String :=
  ⟨pyReplaceChars s.data old.data new.data⟩

/-- Index of the leftmost occurrence of `old` in `s`, if any. -/
def findOcc : List Char → List Char → Option Nat
  | [], old => if old.isEmpty then some 0 else Option.none
  | c :: rest, old =>
    if old.isPrefixOf (c :: rest) then some 0
    else (findOcc rest old).map (· + 1)

/-- Independent formulation of replace-all: repeatedly cut at the leftmost
occurrence.  Fuel-driven; `s.length` fuel is enough for non-empty patterns. -/
def replaceAllSpecAux : Nat → List Char → List Char → List Char → List Char
  | 0, s, _, _ => s
  | fuel + 1, s, old, new =>
    match findOcc s old with
    | Option.none => s
    | some i =>
      s.take i ++ new ++ replaceAllSpecAux fuel (s.drop (i + old.length)) old new

/-- Replace every non-overlapping occurrence of `old` in `s` by `new`,
formulated independently of the scan in `pyReplaceAux`. -/
def replaceAllSpec (s old new : List Char) : List Char :=
  replaceAllSpecAux (s.length + 1) s old new

/-- Replace only the leftmost occurrence of `old` in `s` by `new` (what the
claim's "only that annotation's matched occurrence" would require). -/
def replaceFirstOcc : List Char → List Char → List Char → List Char
  | [], _, _ => []
  | c :: rest, old, new =>
    if old.isPrefixOf (c :: rest) then new ++ List.drop old.length (c :: rest)
    else c :: replaceFirstOcc rest old new

/-- An annotation span of a streamed message: the literal matched text. -/
structure Annotation where
  text : String
deriving DecidableEq, Repr

/-- The text payload of a content block: raw value plus annotation spans. -/
structure MessageText where
  value : String
  annotations : List Annotation
deriving DecidableEq, Repr

/-- One content block of a message. -/
structure ContentBlock where
  text : MessageText
deriving DecidableEq, Repr

/-- A finalized streamed message. -/
structure PyMessage where
  content : List ContentBlock
deriving DecidableEq, Repr

/-- The marker the handler substitutes for the annotation at list index `i`. -/
def bracketIdx (i : Nat) : String := "[" ++ toString i ++ "]"

/-- The rewriting loop of `EventHandler.on_message_done` (src/gpt.py:78-81):
for each annotation, in order, `value = value.replace(annotation.text, "[i]")`
with `i` the annotation's list index. -/
def rewriteAnnotations (value : String) (annots : List Annotation) : String :=
  (annots.enum).foldl (fun v p => pyReplace v p.2.text (bracketIdx p.1)) value

/-- `EventHandler.on_message_done` (src/gpt.py:74-83): takes the first content
block (`message.content[0]`, an `IndexError` when `content` is empty), runs
the annotation rewriting loop, and stores the result in `parse_response`. -/
def on_message_done (message : PyMessage) : Except PyErr String :=
  match message.content with
  | [] => .error .indexError
  | block :: _ => .ok (rewriteAnnotations block.text.value block.text.annotations)

/-- What the claim's reading would compute: for each annotation, replace only
its (leftmost) matched occurrence. -/
def rewriteFirstOnly (value : String) (annots : List Annotation) : String :=
  (annots.enum).foldl
    (fun v p => ⟨replaceFirstOcc v.data p.2.text.data (bracketIdx p.1).data⟩)
    value

/-- The amended behaviour, built on the independent `replaceAllSpec`: for each
annotation in order, replace every occurrence of its literal text. -/
def specRewriteAll (value : String) (annots : List Annotation) : String :=
  (annots.enum).foldl
    (fun v p => ⟨replaceAllSpec v.data p.2.text.data (bracketIdx p.1).data⟩)
    value

/-- A finalized message whose annotated substring occurs twice in the text. -/
def msgRepeated : PyMessage :=
  ⟨[⟨⟨"abab", [⟨"ab"⟩]⟩⟩]⟩

/-- A content block with two distinct annotated substrings. -/
def blockTwoAnn : ContentBlock :=
  ⟨⟨"See [cite1] and [cite2].", [⟨"[cite1]"⟩, ⟨"[cite2]"⟩]⟩⟩

/-- A finalized message with two annotations. -/
def msgTwoAnn : PyMessage := ⟨[blockTwoAnn]⟩

/-- A finalized message with no annotations at all. -/
def msgNoAnn : PyMessage := ⟨[⟨⟨"plain text", []⟩⟩]⟩

/-- A remote assistant resource (the fields the module reads). -/
structure AssistantObj where
  id : String
  name : String
deriving DecidableEq, Repr

/-- A remote uploaded-file handle (the module only reads `.id`). -/
structure FileObj where
  id : String
deriving DecidableEq, Repr

/-- A remote thread (the module only reads `.id`). -/
structure ThreadObj where
  id : String
deriving DecidableEq, Repr

/-- The mutable fields of a `GPT` manager instance (src/gpt.py:89-95). -/
structure GPTState where
  assistant : Option AssistantObj
  message_file : Option FileObj
  thread : Option ThreadObj
deriving DecidableEq, Repr

/-- `GPT.__init__`: all three cached fields start as `None`. -/
def GPTState.initState : GPTState := ⟨Option.none, Option.none, Option.none⟩

/-- One remote API call, recorded in the order the module issues them. -/
inductive RemoteCall where
  | assistantsList : RemoteCall
  | assistantsRetrieve : String → RemoteCall
  | assistantsCreate : String → String → List String → Option String → RemoteCall
  | filesCreate : String → RemoteCall
  | threadsCreate : String → String → String → RemoteCall
  | runsStream : String → String → RemoteCall
deriving DecidableEq, Repr

/-- Python truthiness of an optional string: `None` and `""` are falsy. -/
def pyTruthyStr : Option String → Bool
  | Option.none => false
  | some s => !s.isEmpty

/-- The remote service as the module observes it in one interaction:
what `assistants.list()` returns, what `assistants.retrieve`,
`assistants.create`, `files.create` and `threads.create` hand back, which
local paths are readable, and which messages the streamed run finalizes. -/
structure Env where
  assistants : List AssistantObj
  retrieveAssistant : String → AssistantObj
  createdAssistant : AssistantObj
  uploadedFile : FileObj
  createdThread : ThreadObj
  readableFiles : List String
  runMessages : List PyMessage

/-- `GPT.find_assistant` (src/gpt.py:136-172): `None` for a falsy identifier;
otherwise list all assistants, return `None` on an empty listing, else scan
for an exact id or exact name match (first match wins) and re-fetch the
resource by id.  The second component is the trace of remote calls. -/
def find_assistant (env : Env) (id_or_name : Option String) :
    Option AssistantObj × List RemoteCall :=
  if !pyTruthyStr id_or_name then (Option.none, [])
  else
    let key := id_or_name.getD ""
    if env.assistants.isEmpty then (Option.none, [RemoteCall.assistantsList])
    else
      match env.assistants.find? (fun a => a.id == key || a.name == key) with
      | some a =>
        (some (env.retrieveAssistant a.id),
          [RemoteCall.assistantsList, RemoteCall.assistantsRetrieve a.id])
      | Option.none => (Option.none, [RemoteCall.assistantsList])

/-- `GPT.create_assistant` (src/gpt.py:98-134): with a falsy name, return the
cached assistant if present, else raise `RuntimeError`; with a truthy name,
find the assistant remotely (caching it), else create one with `tools`
defaulting to file-search and `model` defaulting to "gpt-3.5-turbo". -/
def create_assistant (env : Env) (st : GPTState)
    (name instructions : Option String) (tools : Option (List String))
    (model : Option String) :
    Except PyErr AssistantObj × GPTState × List RemoteCall :=
  if pyTruthyStr name then
    match find_assistant env name with
    | (some asst, calls) =>
      (.ok asst, ⟨some asst, st.message_file, st.thread⟩, calls)
    | (Option.none, calls) =>
      let _tools := tools.getD ["file_search"]
      let _model := model.getD "gpt-3.5-turbo"
      (.ok env.createdAssistant,
        ⟨some env.createdAssistant, st.message_file, st.thread⟩,
        calls ++
          [RemoteCall.assistantsCreate (name.getD "") _model _tools instructions])
  else
    match st.assistant with
    | some a => (.ok a, st, [])
    | Option.none =>
      (.error (.runtimeError "Missing name for assistant creation in GPT"), st, [])

/-- `GPT.attach_file` (src/gpt.py:174-184): `open(_path, "rb")` raises
`TypeError` on `None` and an `OSError` on an unreadable path; on success the
upload handle is cached in `message_file`. -/
def attach_file (env : Env) (st : GPTState) (path : Option String) :
    Except PyErr Unit × GPTState × List RemoteCall :=
  match path with
  | Option.none => (.error .typeError, st, [])
  | some p =>
    if env.readableFiles.contains p then
      (.ok (), ⟨st.assistant, some env.uploadedFile, st.thread⟩,
        [RemoteCall.filesCreate p])
    else (.error (.ioError p), st, [])

/-- `GPT.create_thread` (src/gpt.py:186-212): raise `RuntimeError` on falsy
content; reading `self.message_file.id` with no cached file handle raises
`AttributeError` before any remote call; otherwise create the thread with one
seed message (role defaulting to "user") and cache it. -/
def create_thread (env : Env) (st : GPTState) (content : Option String)
    (role : Option String) :
    Except PyErr Unit × GPTState × List RemoteCall :=
  let r := role.getD "user"
  if !pyTruthyStr content then
    (.error (.runtimeError "No content provided for create_thread [hqt673]"), st, [])
  else
    match st.message_file with
    | Option.none => (.error (.attributeError "id"), st, [])
    | some f =>
      (.ok (), ⟨st.assistant, st.message_file, some env.createdThread⟩,
        [RemoteCall.threadsCreate r (content.getD "") f.id])

/-- The streamed run as seen through the event handler: each finalized
message triggers `on_message_done`, overwriting `parse_response`; an error in
the handler propagates out of the stream. -/
def runHandler : List PyMessage → Option String → Except PyErr (Option String)
  | [], acc => .ok acc
  | m :: rest, _acc =>
    match on_message_done m with
    | .error e => .error e
    | .ok v => runHandler rest (some v)

/-- `GPT.get_response` (src/gpt.py:214-252): raise `RuntimeError` when no
thread is cached, then when no assistant is cached; otherwise open the
streamed run, drive it to completion through the event handler, and return
the handler's `parse_response` (which is `None` when no message finalized). -/
def get_response (env : Env) (st : GPTState) :
    Except PyErr (Option String) × GPTState × List RemoteCall :=
  match st.thread with
  | Option.none =>
    (.error (.runtimeError "get_response did not receive thread"), st, [])
  | some t =>
    match st.assistant with
    | Option.none =>
      (.error (.runtimeError "get_response did not receive assistant"), st, [])
    | some a =>
      match runHandler env.runMessages Option.none with
      | .error e => (.error e, st, [RemoteCall.runsStream t.id a.id])
      | .ok r => (.ok r, st, [RemoteCall.runsStream t.id a.id])

/-- `send_pdf_to_openai` (src/gpt.py:254-285).  Line 274 binds the local
`gpt` only in the `if not gpt_obj` branch; line 284 reads
`res = gpt.get_response()`, so when a manager instance is supplied the first
three steps run on it and the final step raises `NameError` for the unbound
local `gpt` instead of fetching the response. -/
def send_pdf_to_openai (env : Env)
    (assistant_name assistant_instructions thread_content file_path :
      Option String)
    (gpt_obj : Option GPTState) :
    Except PyErr (Option String) × GPTState × List RemoteCall :=
  let supplied := gpt_obj.isSome
  let st0 := gpt_obj.getD GPTState.initState
  match create_assistant env st0 assistant_name assistant_instructions
      Option.none Option.none with
  | (.error e, st1, c1) => (.error e, st1, c1)
  | (.ok _, st1, c1) =>
    match attach_file env st1 file_path with
    | (.error e, st2, c2) => (.error e, st2, c1 ++ c2)
    | (.ok _, st2, c2) =>
      match create_thread env st2 thread_content Option.none with
      | (.error e, st3, c3) => (.error e, st3, c1 ++ c2 ++ c3)
      | (.ok _, st3, c3) =>
        if supplied then
          (.error (.nameError "gpt"), st3, c1 ++ c2 ++ c3)
        else
          match get_response env st3 with
          | (res, st4, c4) => (res, st4, c1 ++ c2 ++ c3 ++ c4)

/-- A concrete remote service: no existing assistants, one readable file,
and a streamed run finalizing the two-annotation message. -/
def envDemo : Env :=
  ⟨[], fun i => ⟨i, "Reviewer"⟩, ⟨"asst_new", "Reviewer"⟩, ⟨"file_1"⟩,
    ⟨"thread_1"⟩, ["report.pdf"], [msgTwoAnn]⟩

/-- A manager state with a thread cached but no assistant. -/
def stThreadOnly : GPTState := ⟨Option.none, Option.none, some ⟨"t1"⟩⟩

/-- A manager state with an assistant cached. -/
def stCached : GPTState := ⟨some ⟨"asst_1", "Reviewer"⟩, Option.none, Option.none⟩

/- ===================== theorems ===================== -/

theorem pyTruthy_of_none : pyTruthy .none = false := rfl

theorem pullerLoop_cons (obj : PyVal) (a : String) (r : List String)
    (v : PyVal) :
    pullerLoop obj (a :: r) v =
      (let ret' := if pyTruthy v then pygetattr v a else pygetattr obj a
       if pyTruthy ret' then pullerLoop obj r ret' else ret') := rfl

theorem attribute_puller_nil (obj : PyVal) :
    attribute_puller [] obj = .none := rfl

theorem attribute_puller_falsyRoot (path : List String) (obj : PyVal)
    (h : pyTruthy obj = false) : attribute_puller path obj = .none := by
  simp [attribute_puller, h]

theorem attribute_puller_cons (a : String) (r : List String) (obj : PyVal)
    (h : pyTruthy obj = true) :
    attribute_puller (a :: r) obj = pullerLoop obj (a :: r) .none := by
  simp [attribute_puller, h]

theorem pygetattrDefaultE_none (v : PyVal) (a : String) :
    pygetattrDefaultE v a .none = .ok (pygetattr v a) := by
  cases v <;> rfl

theorem pullerLoopE_eq (obj : PyVal) :
    ∀ (l : List String) (v : PyVal),
      pullerLoopE obj l v = .ok (pullerLoop obj l v) := by
  intro l
  induction l with
  | nil => intro v; rfl
  | cons a r ih =>
    intro v
    rw [pullerLoopE, pullerLoop_cons]
    by_cases hv : pyTruthy v
    · rw [if_pos hv, if_pos hv, pygetattrDefaultE_none]
      by_cases h1 : pyTruthy (pygetattr v a)
      · simp only [if_pos h1, ih]
      · simp only [if_neg h1]
    · rw [if_neg hv, if_neg hv, pygetattrDefaultE_none]
      by_cases h1 : pyTruthy (pygetattr obj a)
      · simp only [if_pos h1, ih]
      · simp only [if_neg h1]

theorem pullerLoop_truthy (obj : PyVal) :
    ∀ (rest : List String) (v : PyVal), pyTruthy v = true →
      allStepsTruthy v rest = true →
      pullerLoop obj rest v = List.foldl pygetattr v rest := by
  intro rest
  induction rest with
  | nil => intro v _ _; rfl
  | cons a r ih =>
    intro v hv hall
    rw [allStepsTruthy, Bool.and_eq_true] at hall
    rw [pullerLoop_cons]
    simp only [hv, hall.1, if_true]
    rw [List.foldl_cons]
    exact ih (pygetattr v a) hall.1 hall.2

theorem pullerLoop_falsy (obj : PyVal) :
    ∀ (rest : List String) (v : PyVal), pyTruthy v = true →
      allStepsTruthy v rest = false →
      pyTruthy (pullerLoop obj rest v) = false := by
  intro rest
  induction rest with
  | nil =>
    intro v hv hall
    rw [allStepsTruthy] at hall
    exact absurd hall (by simp)
  | cons a r ih =>
    intro v hv hall
    rw [pullerLoop_cons]
    simp only [hv, if_true]
    by_cases h1 : pyTruthy (pygetattr v a)
    · have h2 : allStepsTruthy (pygetattr v a) r = false := by
        rw [allStepsTruthy, h1, Bool.true_and] at hall
        exact hall
      simp only [if_pos h1]
      exact ih (pygetattr v a) h1 h2
    · simp only [if_neg h1]
      simpa using h1

theorem pygetattr_truthy_obj (v : PyVal) (a : String)
    (h : pyTruthy (pygetattr v a) = true) : pyTruthy v = true := by
  cases v with
  | obj attrs => rfl
  | none => exact absurd h (by simp [pygetattr, pyTruthy])
  | int n => exact absurd h (by simp [pygetattr, pyTruthy])
  | str s => exact absurd h (by simp [pygetattr, pyTruthy])

/-- C7: for every root object and attribute chain in which each step's
attribute exists and yields a truthy value, `attribute_puller` returns the
leaf value reached by walking the chain left to right. -/
theorem attributePullerValidChainLeaf (path : List String) (obj : PyVal)
    (hne : path ≠ []) (hall : allStepsTruthy obj path = true) :
    attribute_puller path obj = walkLeaf obj path := by
  match path, hne with
  | a :: r, _ =>
    rw [allStepsTruthy, Bool.and_eq_true] at hall
    have h1 : pyTruthy (pygetattr obj a) = true := hall.1
    have h2 : allStepsTruthy (pygetattr obj a) r = true := hall.2
    have hobj : pyTruthy obj = true := pygetattr_truthy_obj obj a h1
    rw [attribute_puller_cons a r obj hobj, pullerLoop_cons]
    simp only [pyTruthy_of_none, Bool.false_eq_true, if_false, h1, if_true]
    rw [pullerLoop_truthy obj r (pygetattr obj a) h1 h2]
    rw [walkLeaf, List.foldl_cons]

theorem attributePullerValidChainLeafWitness :
    (["a", "b"] : List String) ≠ [] ∧
    allStepsTruthy (PyVal.obj (.cons "a" (.obj (.cons "b" (.int 7) .nil)) .nil))
      ["a", "b"] = true ∧
    attribute_puller ["a", "b"]
        (PyVal.obj (.cons "a" (.obj (.cons "b" (.int 7) .nil)) .nil)) =
      walkLeaf (PyVal.obj (.cons "a" (.obj (.cons "b" (.int 7) .nil)) .nil))
        ["a", "b"] :=
  ⟨by decide, by decide,
    attributePullerValidChainLeaf ["a", "b"]
      (PyVal.obj (.cons "a" (.obj (.cons "b" (.int 7) .nil)) .nil))
      (by decide) (by decide)⟩

/-- C3 counterexample: the attribute `usage` exists on `objWithFalsyAttr` but
holds the falsy value `0`; the walk stops there, yet the resolver returns
that value `0`, not `None`, contradicting "returns none for the whole path". -/
theorem attributePullerFalsyValueNotNone :
    attribute_puller ["usage"] objWithFalsyAttr = .int 0 ∧
    pyTruthy (pygetattr objWithFalsyAttr "usage") = false ∧
    attribute_puller ["usage"] objWithFalsyAttr ≠ .none := by
  refine ⟨by decide, by decide, by decide⟩

/-- C3 (amended): if the path is empty, or the root object is falsy, or some
step of the walk yields a missing or falsy value, then `attribute_puller`
returns a falsy value for the whole path (`None` when the path is empty, the
root is falsy, or the attribute is missing; otherwise the falsy attribute
value at which the walk stopped). -/
theorem attributePullerFailureReturnsFalsy (path : List String) (obj : PyVal)
    (h : path = [] ∨ pyTruthy obj = false ∨ allStepsTruthy obj path = false) :
    pyTruthy (attribute_puller path obj) = false := by
  rcases h with h | h | h
  · rw [h, attribute_puller_nil, pyTruthy_of_none]
  · rw [attribute_puller_falsyRoot path obj h, pyTruthy_of_none]
  · match path with
    | [] => rw [attribute_puller_nil, pyTruthy_of_none]
    | a :: r =>
      by_cases hobj : pyTruthy obj = true
      · rw [attribute_puller_cons a r obj hobj, pullerLoop_cons]
        simp only [pyTruthy_of_none, Bool.false_eq_true, if_false]
        by_cases h1 : pyTruthy (pygetattr obj a) = true
        · have h2 : allStepsTruthy (pygetattr obj a) r = false := by
            rw [allStepsTruthy, h1, Bool.true_and] at h
            exact h
          simp only [h1, if_true]
          exact pullerLoop_falsy obj r (pygetattr obj a) h1 h2
        · simp only [if_neg h1]
          simpa using h1
      · have hobj' : pyTruthy obj = false := by simpa using hobj
        rw [attribute_puller_falsyRoot (a :: r) obj hobj', pyTruthy_of_none]

theorem attributePullerFailureReturnsFalsyWitness :
    ((["usage"] : List String) = [] ∨ pyTruthy objWithFalsyAttr = false ∨
      allStepsTruthy objWithFalsyAttr ["usage"] = false) ∧
    pyTruthy (attribute_puller ["usage"] objWithFalsyAttr) = false :=
  ⟨Or.inr (Or.inr (by decide)),
    attributePullerFailureReturnsFalsy ["usage"] objWithFalsyAttr
      (Or.inr (Or.inr (by decide)))⟩

theorem isPrefixOf_length_le :
    ∀ (old s : List Char), old.isPrefixOf s = true → old.length ≤ s.length := by
  intro old
  induction old with
  | nil => intro s _; simp
  | cons c cs ih =>
    intro s h
    cases s with
    | nil => simp [List.isPrefixOf] at h
    | cons d ds =>
      simp only [List.isPrefixOf, Bool.and_eq_true] at h
      simpa [List.length_cons, Nat.succ_le_succ_iff] using ih ds h.2

theorem findOcc_nil (old : List Char) (h : old ≠ []) :
    findOcc [] old = Option.none := by
  simp [findOcc, List.isEmpty_iff, h]

theorem findOcc_le :
    ∀ (s old : List Char) (i : Nat), old ≠ [] → findOcc s old = some i →
      i + old.length ≤ s.length := by
  intro s
  induction s with
  | nil =>
    intro old i h hf
    rw [findOcc_nil old h] at hf
    exact absurd hf (by simp)
  | cons c rest ih =>
    intro old i h hf
    by_cases hp : old.isPrefixOf (c :: rest) = true
    · have : findOcc (c :: rest) old = some 0 := by simp [findOcc, hp]
      rw [this] at hf
      have hi : i = 0 := by injection hf; omega
      subst hi
      simpa using isPrefixOf_length_le old (c :: rest) hp
    · have : findOcc (c :: rest) old = (findOcc rest old).map (· + 1) := by
        simp [findOcc, hp]
      rw [this] at hf
      cases ho : findOcc rest old with
      | none => rw [ho] at hf; exact absurd hf (by simp)
      | some j =>
        rw [ho] at hf
        simp only [Option.map_some'] at hf
        have hj := ih old j h ho
        have : i = j + 1 := by injection hf; omega
        subst this
        simp only [List.length_cons]
        omega

theorem length_pos_of_ne_nil (old : List Char) (hold : old ≠ []) :
    1 ≤ old.length := by
  cases old with
  | nil => exact absurd rfl hold
  | cons _ _ => rw [List.length_cons]; omega

theorem fuel_succ_shape (m f : Nat) (h : m < f) : ∃ g, f = g + 1 :=
  ⟨f - 1, by omega⟩

theorem pyReplaceAux_noOcc :
    ∀ (s old new : List Char) (f : Nat), old ≠ [] →
      findOcc s old = Option.none → s.length < f →
      pyReplaceAux f s old new = s := by
  intro s
  induction s with
  | nil => intro old new f _ _ _; cases f <;> rfl
  | cons c rest ih =>
    intro old new f hold hf hlen
    have hp : old.isPrefixOf (c :: rest) = false := by
      by_contra hc
      have hc' : old.isPrefixOf (c :: rest) = true := by
        revert hc; cases old.isPrefixOf (c :: rest) <;> simp
      have h0 : findOcc (c :: rest) old = some 0 := by simp [findOcc, hc']
      rw [h0] at hf
      exact absurd hf (by simp)
    have hrest : findOcc rest old = Option.none := by
      have hmap : findOcc (c :: rest) old = (findOcc rest old).map (· + 1) := by
        simp [findOcc, hp]
      rw [hmap] at hf
      cases ho : findOcc rest old with
      | none => rfl
      | some j => rw [ho] at hf; exact absurd hf (by simp)
    obtain ⟨g, rfl⟩ := fuel_succ_shape _ _ hlen
    rw [pyReplaceAux, if_neg (by simp [hp])]
    have hr : rest.length < g := by
      rw [List.length_cons] at hlen
      omega
    rw [ih old new g hold hrest hr]

theorem replaceAllSpecAux_fuelIrrel :
    ∀ (n : Nat) (s old new : List Char) (f f' : Nat), old ≠ [] →
      s.length ≤ n → s.length < f → s.length < f' →
      replaceAllSpecAux f s old new = replaceAllSpecAux f' s old new := by
  intro n
  induction n with
  | zero =>
    intro s old new f f' hold hn hf hf'
    have hs : s = [] := List.length_eq_zero.mp (Nat.le_zero.mp hn)
    subst hs
    obtain ⟨g, rfl⟩ := fuel_succ_shape _ _ hf
    obtain ⟨g', rfl⟩ := fuel_succ_shape _ _ hf'
    simp only [replaceAllSpecAux, findOcc_nil old hold]
  | succ n ih =>
    intro s old new f f' hold hn hf hf'
    obtain ⟨g, rfl⟩ := fuel_succ_shape _ _ hf
    obtain ⟨g', rfl⟩ := fuel_succ_shape _ _ hf'
    cases ho : findOcc s old with
    | none => simp only [replaceAllSpecAux, ho]
    | some i =>
      simp only [replaceAllSpecAux, ho]
      have hle : i + old.length ≤ s.length := findOcc_le s old i hold ho
      have holdlen : 1 ≤ old.length := length_pos_of_ne_nil old hold
      have hdrop : (s.drop (i + old.length)).length = s.length - (i + old.length) :=
        List.length_drop _ _
      have h1 : (s.drop (i + old.length)).length ≤ n := by omega
      have h2 : (s.drop (i + old.length)).length < g := by omega
      have h3 : (s.drop (i + old.length)).length < g' := by omega
      rw [ih (s.drop (i + old.length)) old new g g' hold h1 h2 h3]

theorem pyReplaceAux_eq_replaceAllSpecAux :
    ∀ (f1 : Nat) (s old new : List Char) (f2 : Nat), old ≠ [] →
      s.length < f1 → s.length < f2 →
      pyReplaceAux f1 s old new = replaceAllSpecAux f2 s old new := by
  intro f1
  induction f1 with
  | zero => intro s old new f2 _ h _; omega
  | succ g ih =>
    intro s old new f2 hold hf1 hf2
    have holdlen : 1 ≤ old.length := length_pos_of_ne_nil old hold
    obtain ⟨g2, rfl⟩ := fuel_succ_shape _ _ hf2
    cases s with
    | nil => simp only [pyReplaceAux, replaceAllSpecAux, findOcc_nil old hold]
    | cons c rest =>
      have hclen : (c :: rest).length = rest.length + 1 := List.length_cons _ _
      by_cases hp : old.isPrefixOf (c :: rest) = true
      · have hfo : findOcc (c :: rest) old = some 0 := by simp [findOcc, hp]
        rw [pyReplaceAux, if_pos (by simp [hp])]
        simp only [replaceAllSpecAux, hfo, List.take_zero, List.nil_append,
          Nat.zero_add]
        have hdlen : (List.drop old.length (c :: rest)).length =
            (c :: rest).length - old.length := List.length_drop _ _
        have h1 : (List.drop old.length (c :: rest)).length < g := by omega
        have h2 : (List.drop old.length (c :: rest)).length < g2 := by omega
        rw [ih (List.drop old.length (c :: rest)) old new g2 hold h1 h2]
      · have hp' : old.isPrefixOf (c :: rest) = false := by
          revert hp; cases old.isPrefixOf (c :: rest) <;> simp
        have hfo : findOcc (c :: rest) old = (findOcc rest old).map (· + 1) := by
          simp [findOcc, hp']
        rw [pyReplaceAux, if_neg (by simp [hp'])]
        cases ho : findOcc rest old with
        | none =>
          simp only [replaceAllSpecAux, hfo, ho, Option.map_none']
          have hr : rest.length < g := by omega
          rw [pyReplaceAux_noOcc rest old new g hold ho hr]
        | some i =>
          simp only [replaceAllSpecAux, hfo, ho, Option.map_some']
          have hle : i + old.length ≤ rest.length := findOcc_le rest old i hold ho
          have hrg : rest.length < g := by omega
          have ihr : pyReplaceAux g rest old new =
              replaceAllSpecAux (rest.length + 1) rest old new :=
            ih rest old new (rest.length + 1) hold hrg (Nat.lt_succ_self _)
          rw [ihr]
          simp only [replaceAllSpecAux, ho]
          have hdrop : (rest.drop (i + old.length)).length =
              rest.length - (i + old.length) := List.length_drop _ _
          have hinner : replaceAllSpecAux rest.length (rest.drop (i + old.length))
              old new =
              replaceAllSpecAux g2 (rest.drop (i + old.length)) old new := by
            apply replaceAllSpecAux_fuelIrrel rest.length _ old new _ _ hold
            · omega
            · omega
            · omega
          rw [hinner]
          have htake : (c :: rest).take (i + 1) = c :: rest.take i :=
            List.take_succ_cons
          have hdrop2 : (c :: rest).drop (i + 1 + old.length) =
              rest.drop (i + old.length) := by
            have harith : i + 1 + old.length = (i + old.length) + 1 := by omega
            rw [harith, List.drop_succ_cons]
          rw [htake, hdrop2]
          simp [List.cons_append]

theorem pyReplaceChars_eq_replaceAllSpec (s old new : List Char)
    (h : old ≠ []) : pyReplaceChars s old new = replaceAllSpec s old new := by
  rw [pyReplaceChars, replaceAllSpec, if_neg (by simp [List.isEmpty_iff, h])]
  exact pyReplaceAux_eq_replaceAllSpecAux (s.length + 1) s old new (s.length + 1)
    h (Nat.lt_succ_self _) (Nat.lt_succ_self _)

theorem data_ne_nil_of_ne_empty (t : String) (h : t ≠ "") : t.data ≠ [] :=
  fun hd => h (String.ext (by rw [hd]))

theorem pyReplace_eq_spec (s old new : String) (h : old ≠ "") :
    pyReplace s old new = ⟨replaceAllSpec s.data old.data new.data⟩ :=
  congrArg String.mk
    (pyReplaceChars_eq_replaceAllSpec s.data old.data new.data
      (data_ne_nil_of_ne_empty old h))

theorem mem_enumFrom_snd :
    ∀ (l : List Annotation) (n : Nat) (p : Nat × Annotation),
      p ∈ l.enumFrom n → p.2 ∈ l := by
  intro l
  induction l with
  | nil => intro n p hp; simp [List.enumFrom] at hp
  | cons a rest ih =>
    intro n p hp
    simp only [List.enumFrom, List.mem_cons] at hp
    rcases hp with hp | hp
    · subst hp; simp
    · exact List.mem_cons_of_mem _ (ih (n + 1) p hp)

theorem rewriteFoldCongr :
    ∀ (l : List (Nat × Annotation)) (v : String),
      (∀ p ∈ l, p.2.text ≠ "") →
      List.foldl (fun v p => pyReplace v p.2.text (bracketIdx p.1)) v l =
        List.foldl
          (fun v p =>
            (⟨replaceAllSpec v.data p.2.text.data (bracketIdx p.1).data⟩ : String))
          v l := by
  intro l
  induction l with
  | nil => intro v _; rfl
  | cons q rest ih =>
    intro v h
    rw [List.foldl_cons, List.foldl_cons,
      pyReplace_eq_spec v q.2.text (bracketIdx q.1) (h q (List.mem_cons_self _ _))]
    exact ih _ (fun p hp => h p (List.mem_cons_of_mem _ hp))

theorem rewriteAnnotations_eq_specRewriteAll (value : String)
    (annots : List Annotation) (h : ∀ a ∈ annots, a.text ≠ "") :
    rewriteAnnotations value annots = specRewriteAll value annots := by
  rw [rewriteAnnotations, specRewriteAll]
  exact rewriteFoldCongr annots.enum value
    (fun p hp => h p.2 (mem_enumFrom_snd annots 0 p hp))

/-- C2 counterexample: on the message with text `"abab"` and one annotation
matching `"ab"`, the handler stores `"[0][0]"` — Python's `str.replace`
replaced BOTH occurrences — while the claim (only the matched occurrence is
replaced, other occurrences of the same substring stay unchanged) would
yield `"[0]ab"`. -/
theorem onMessageDoneNotFirstOccurrenceOnly :
    on_message_done msgRepeated = .ok "[0][0]" ∧
    rewriteFirstOnly "abab" [⟨"ab"⟩] = "[0]ab" ∧
    ("[0][0]" : String) ≠ "[0]ab" :=
  ⟨by rfl, by rfl, by decide⟩

/-- C2 (amended): for every finalized message whose first content block's
annotation texts are non-empty, the handler replaces, for each annotation in
server order, EVERY occurrence of its literal text in the current payload
value with the bracketed index string (Python replace-all semantics), and
stores the rewritten text; equivalently, the stored text is the sequential
leftmost-occurrence-cutting rewrite `specRewriteAll`. -/
theorem onMessageDoneReplacesAllOccurrences (message : PyMessage)
    (block : ContentBlock) (rest : List ContentBlock)
    (hc : message.content = block :: rest)
    (hann : ∀ a ∈ block.text.annotations, a.text ≠ "") :
    on_message_done message =
      .ok (specRewriteAll block.text.value block.text.annotations) := by
  simp only [on_message_done, hc]
  rw [rewriteAnnotations_eq_specRewriteAll block.text.value
    block.text.annotations hann]

theorem onMessageDoneReplacesAllOccurrencesWitness :
    msgTwoAnn.content = blockTwoAnn :: [] ∧
    (∀ a ∈ blockTwoAnn.text.annotations, a.text ≠ "") ∧
    on_message_done msgTwoAnn =
      .ok (specRewriteAll blockTwoAnn.text.value blockTwoAnn.text.annotations) :=
  ⟨rfl, by decide,
    onMessageDoneReplacesAllOccurrences msgTwoAnn blockTwoAnn [] rfl (by decide)⟩

/-- C8: for every finalized message whose first content block carries an
empty annotation list, the handler stores the text payload's value unchanged. -/
theorem onMessageDoneNoAnnotations (message : PyMessage) (block : ContentBlock)
    (rest : List ContentBlock) (hc : message.content = block :: rest)
    (hann : block.text.annotations = []) :
    on_message_done message = .ok block.text.value := by
  simp only [on_message_done, hc, rewriteAnnotations, hann, List.enum_nil,
    List.foldl_nil]

theorem onMessageDoneNoAnnotationsWitness :
    msgNoAnn.content = (⟨⟨"plain text", []⟩⟩ : ContentBlock) :: [] ∧
    on_message_done msgNoAnn = .ok "plain text" :=
  ⟨rfl, onMessageDoneNoAnnotations msgNoAnn ⟨⟨"plain text", []⟩⟩ [] rfl rfl⟩

/-- C9: for every path and root object, the resolver terminates normally and
returns a value without raising: in the exception-monad embedding (where each
attribute access is the defaulting three-argument `getattr`), the result is
always `Except.ok`, even when attributes are missing along the chain. -/
theorem attributePullerNeverRaises (path : List String) (obj : PyVal) :
    attributePullerE path obj = .ok (attribute_puller path obj) := by
  rw [attributePullerE, attribute_puller]
  by_cases h : (path.isEmpty || !pyTruthy obj) = true
  · rw [if_pos h, if_pos h]
  · rw [if_neg h, if_neg h]
    exact pullerLoopE_eq obj path .none

theorem get_response_fst_state (env : Env) (st : GPTState) :
    (get_response env st).2.1 = st := by
  cases h : st.thread with
  | none => simp [get_response, h]
  | some t =>
    cases h2 : st.assistant with
    | none => simp [get_response, h, h2]
    | some a =>
      cases h3 : runHandler env.runMessages Option.none with
      | error e => simp [get_response, h, h2, h3]
      | ok r => simp [get_response, h, h2, h3]

/-- C4: on every manager state, `get_response` raises the missing-thread
`RuntimeError` when no thread is cached, and the missing-assistant
`RuntimeError` when a thread is cached but no assistant is; in both cases the
state is untouched and the remote-call trace is empty (no run started). -/
theorem getResponseGuardErrors (env : Env) (st : GPTState) :
    (st.thread = Option.none →
      get_response env st =
        (.error (.runtimeError "get_response did not receive thread"), st, [])) ∧
    (∀ t, st.thread = some t → st.assistant = Option.none →
      get_response env st =
        (.error (.runtimeError "get_response did not receive assistant"), st,
          [])) := by
  constructor
  · intro h
    simp [get_response, h]
  · intro t ht ha
    simp [get_response, ht, ha]

theorem getResponseGuardErrorsWitness :
    get_response envDemo GPTState.initState =
      (.error (.runtimeError "get_response did not receive thread"),
        GPTState.initState, []) ∧
    get_response envDemo stThreadOnly =
      (.error (.runtimeError "get_response did not receive assistant"),
        stThreadOnly, []) :=
  ⟨(getResponseGuardErrors envDemo GPTState.initState).1 rfl,
   (getResponseGuardErrors envDemo stThreadOnly).2 ⟨"t1"⟩ rfl rfl⟩

/-- C5: on every manager state with no cached assistant, `create_assistant`
with a falsy name raises the "Missing name" `RuntimeError`, leaves the state
untouched, and issues no remote call (no list, retrieve or create). -/
theorem createAssistantMissingNameError (env : Env) (st : GPTState)
    (name instructions : Option String) (tools : Option (List String))
    (model : Option String) (hA : st.assistant = Option.none)
    (hname : pyTruthyStr name = false) :
    create_assistant env st name instructions tools model =
      (.error (.runtimeError "Missing name for assistant creation in GPT"),
        st, []) := by
  simp [create_assistant, hname, hA]

theorem createAssistantMissingNameErrorWitness :
    GPTState.initState.assistant = Option.none ∧
    pyTruthyStr Option.none = false ∧
    create_assistant envDemo GPTState.initState Option.none Option.none
        Option.none Option.none =
      (.error (.runtimeError "Missing name for assistant creation in GPT"),
        GPTState.initState, []) :=
  ⟨rfl, rfl,
    createAssistantMissingNameError envDemo GPTState.initState Option.none
      Option.none Option.none Option.none rfl rfl⟩

/-- C6: on every manager state with an assistant already cached,
`create_assistant` with no name returns exactly the cached reference, leaves
the state untouched, and issues no remote call (no list or create). -/
theorem createAssistantCachedReuse (env : Env) (st : GPTState)
    (instructions : Option String) (tools : Option (List String))
    (model : Option String) (a : AssistantObj) (hA : st.assistant = some a) :
    create_assistant env st Option.none instructions tools model =
      (.ok a, st, []) := by
  simp [create_assistant, pyTruthyStr, hA]

theorem createAssistantCachedReuseWitness :
    stCached.assistant = some ⟨"asst_1", "Reviewer"⟩ ∧
    create_assistant envDemo stCached Option.none Option.none Option.none
        Option.none =
      (.ok ⟨"asst_1", "Reviewer"⟩, stCached, []) :=
  ⟨rfl,
    createAssistantCachedReuse envDemo stCached Option.none Option.none
      Option.none ⟨"asst_1", "Reviewer"⟩ rfl⟩

/-- C10: whenever a manager operation raises one of its guard errors
(`create_assistant`'s missing-name error, `create_thread`'s missing-content
error, or `get_response`'s missing-thread / missing-assistant errors), the
state-record of cached fields (assistant, message_file, thread) is returned
exactly as it was before the call. -/
theorem guardErrorsPreserveState (env : Env) (st : GPTState)
    (name instructions content role : Option String)
    (tools : Option (List String)) (model : Option String) :
    ((create_assistant env st name instructions tools model).1 =
        .error (.runtimeError "Missing name for assistant creation in GPT") →
      (create_assistant env st name instructions tools model).2.1 = st) ∧
    ((create_thread env st content role).1 =
        .error (.runtimeError "No content provided for create_thread [hqt673]") →
      (create_thread env st content role).2.1 = st) ∧
    ((get_response env st).1 =
        .error (.runtimeError "get_response did not receive thread") →
      (get_response env st).2.1 = st) ∧
    ((get_response env st).1 =
        .error (.runtimeError "get_response did not receive assistant") →
      (get_response env st).2.1 = st) := by
  refine ⟨?_, ?_, fun _ => get_response_fst_state env st,
    fun _ => get_response_fst_state env st⟩
  · by_cases hname : pyTruthyStr name = true
    · rcases hfa : find_assistant env name with ⟨found, calls⟩
      cases found with
      | none => intro h; simp [create_assistant, hname, hfa] at h
      | some a => intro h; simp [create_assistant, hname, hfa] at h
    · have hname' : pyTruthyStr name = false := by simpa using hname
      cases hA : st.assistant with
      | none => intro _; simp [create_assistant, hname', hA]
      | some a => intro h; simp [create_assistant, hname', hA] at h
  · by_cases hc : pyTruthyStr content = true
    · cases hm : st.message_file with
      | none => intro h; simp [create_thread, hc, hm] at h
      | some f => intro h; simp [create_thread, hc, hm] at h
    · have hc' : pyTruthyStr content = false := by simpa using hc
      intro _
      simp [create_thread, hc']

theorem guardErrorsPreserveStateWitness :
    (create_assistant envDemo GPTState.initState Option.none Option.none
        Option.none Option.none).2.1 = GPTState.initState ∧
    (create_thread envDemo GPTState.initState Option.none Option.none).2.1 =
      GPTState.initState ∧
    (get_response envDemo GPTState.initState).2.1 = GPTState.initState ∧
    (get_response envDemo stThreadOnly).2.1 = stThreadOnly :=
  ⟨(guardErrorsPreserveState envDemo GPTState.initState Option.none Option.none
      Option.none Option.none Option.none Option.none).1 rfl,
   (guardErrorsPreserveState envDemo GPTState.initState Option.none Option.none
      Option.none Option.none Option.none Option.none).2.1 rfl,
   (guardErrorsPreserveState envDemo GPTState.initState Option.none Option.none
      Option.none Option.none Option.none Option.none).2.2.1 rfl,
   (guardErrorsPreserveState envDemo stThreadOnly Option.none Option.none
      Option.none Option.none Option.none Option.none).2.2.2 rfl⟩

/-- C1: evaluated at a concrete input, `send_pdf_to_openai` with a supplied
manager instance runs create-or-reuse, attach-file and create-thread on the
supplied instance but then raises `NameError` for the unbound local `gpt`
(src/gpt.py:284) instead of fetching the response through that instance;
with no instance supplied, the same arguments complete all four steps on the
fresh instance and return the collected text. -/
theorem sendPdfSuppliedInstanceNameError :
    send_pdf_to_openai envDemo (some "Reviewer") (some "You are a reviewer.")
        (some "Summarize this.") (some "report.pdf")
        (some GPTState.initState) =
      (.error (.nameError "gpt"),
        ⟨some envDemo.createdAssistant, some envDemo.uploadedFile,
          some envDemo.createdThread⟩,
        [RemoteCall.assistantsList,
         RemoteCall.assistantsCreate "Reviewer" "gpt-3.5-turbo" ["file_search"]
           (some "You are a reviewer."),
         RemoteCall.filesCreate "report.pdf",
         RemoteCall.threadsCreate "user" "Summarize this." "file_1"]) ∧
    send_pdf_to_openai envDemo (some "Reviewer") (some "You are a reviewer.")
        (some "Summarize this.") (some "report.pdf") Option.none =
      (.ok (some "See [0] and [1]."),
        ⟨some envDemo.createdAssistant, some envDemo.uploadedFile,
          some envDemo.createdThread⟩,
        [RemoteCall.assistantsList,
         RemoteCall.assistantsCreate "Reviewer" "gpt-3.5-turbo" ["file_search"]
           (some "You are a reviewer."),
         RemoteCall.filesCreate "report.pdf",
         RemoteCall.threadsCreate "user" "Summarize this." "file_1",
         RemoteCall.runsStream "thread_1" "asst_new"]) :=
  ⟨rfl, rfl⟩

end GptWrapper
